import Mathlib

/-!
Verification of the Miskamyasa/utils repository.

Part A models the `async` package: the memoizing asynchronous computation
cell ("Future") with its creation operation `ExecAsync` and blocking
accessor `Await`.  Only the package's test file is present in the sources,
so the Future itself is modelled from the specification (sections 2-5):
a completion cell holding an eventual result and a one-shot done signal,
written exactly once by a single worker, read by arbitrarily many waiters.
Concurrency is modelled by a trace semantics: a schedule is a list of
events (the worker's single run, and accessor observation points), and
theorems quantify over all schedules.

Part B embeds the `middlewares` and `response` packages, which are present
in the sources, as pure functions over an explicit response-writer state.
-/

/-- Modelled from the spec: the events of a Future's lifetime.  `work` is
the single worker running the captured computation to completion and
signaling done (spec 4.3: the `Pending/Running -> Completed` transition
happens exactly once, performed by the worker itself); `await` is an
accessor call observing the cell (spec 4.2). -/
inductive Ev where
  | work
  | await
deriving DecidableEq, Repr

/-- Modelled from the spec (section 3, the implementation of package
`async` being absent from the sources): the single entity `Future<T>` with
`result` (unset until completion), the one-shot `done` signal, and the
captured `computation`.  `execCount` instruments the number of times the
computation has been invoked (spec section 8, "Single execution"). -/
structure Future (T : Type) where
  computation : Unit → T
  execCount : Nat
  done : Bool
  result : Option T

/-- Modelled from the spec (section 4.1, creation operation): captures the
computation and returns a handle synchronously; the cell starts unset and
unsignaled, and the computation has not yet been invoked on return. -/
def ExecAsync {T : Type} (f : Unit → T) : Future T :=
  { computation := f, execCount := 0, done := false, result := none }

/-- Modelled from the spec (sections 4.3 and 5): the worker's run.  It
invokes the captured computation, writes `result`, and signals `done`
atomically.  A well-formed schedule contains this event exactly once
(one dedicated worker per Future, spec section 5). -/
def workStep {T : Type} (s : Future T) : Future T :=
  { s with
    execCount := s.execCount + 1
    done := true
    result := some (s.computation ()) }

/-- Modelled from the spec (section 4.2, blocking accessor): `Await`
suspends until `done` is signaled and then returns `result`; it never
itself runs the computation.  `none` models an accessor call that has not
returned yet (still suspended); `some v` models a call that returned `v`.
The accessor leaves the cell unchanged. -/
def Await {T : Type} (s : Future T) : Option T :=
  if s.done then s.result else none

/-- Modelled from the spec: running a schedule of events from a given
Future state.  An `await` event does not change the state (the accessor
purely reads the shared cell). -/
def run {T : Type} : Future T → List Ev → Future T
  | s, [] => s
  | s, Ev.work :: es => run (workStep s) es
  | s, Ev.await :: es => run s es

/-- Modelled from the spec: the values returned by the accessor calls of a
schedule, in order.  An accessor that is still suspended at its
observation point (done not yet signaled) contributes nothing: only calls
that return are collected (spec section 5, "every accessor call that
returns"). -/
def runReturns {T : Type} : Future T → List Ev → List T
  | _, [] => []
  | s, Ev.work :: es => runReturns (workStep s) es
  | s, Ev.await :: es =>
    match Await s with
    | some v => v :: runReturns s es
    | none => runReturns s es

/-- The number of worker-run events in a schedule.  One dedicated worker
is started per Future (spec section 5), so a schedule of a complete
execution contains exactly one `work` event. -/
def countWork : List Ev → Nat
  | [] => 0
  | Ev.work :: es => countWork es + 1
  | Ev.await :: es => countWork es

/-- The completion-cell invariant (spec section 3): the captured
computation is `f`, and either the cell is unsignaled with `result` unset,
or it is signaled with `result` holding exactly the computation's value. -/
def CellInv {T : Type} (f : Unit → T) (s : Future T) : Prop :=
  s.computation = f ∧
    ((s.done = false ∧ s.result = none) ∨
      (s.done = true ∧ s.result = some (f ())))

/-!
Part B: embedding of the `middlewares` and `response` packages
(src/middlewares/middlewares.go and the `response` package source).
Go's `error` values are modelled by their message, arbitrary `interface{}`
values (panic values, cache payloads) by `GoValue`, and an
`http.ResponseWriter` by an explicit state carrying the response headers,
the status code of the first `WriteHeader` call, the accumulated body,
and the log of `alerts.Send` calls.
-/

/-- A Go `error` value, modelled by its message. -/
structure GoError where
  msg : String
deriving DecidableEq, Repr

/-- A Go `interface{}` value as the middlewares observe it: either it is
an `error` (the type switch `err.(error)` succeeds) or it is some other
value, carried as its `%v` formatting. -/
inductive GoValue where
  | ofError (e : GoError)
  | ofOther (s : String)
deriving DecidableEq, Repr

/-- An incoming `*http.Request`, restricted to the fields the middlewares
read: the header map, `RemoteAddr` and `URL.Path`. -/
structure Request where
  headers : List (String × String)
  remoteAddr : String
  urlPath : String

/-- `req.Header.Get(k)`: the first value stored under the key, or the
empty string when the header is absent. -/
def headerGet (r : Request) (k : String) : String :=
  match r.headers.lookup k with
  | some v => v
  | none => ""

/-- The observable state of an `http.ResponseWriter`, plus the log of
`alerts.Send` calls made while handling the request.  `status` is the
code of the first `WriteHeader` call (`none` before any). -/
structure ResponseWriter where
  header : List (String × String)
  status : Option Nat
  body : String
  alerts : List (String × Option GoError)
deriving DecidableEq, Repr

/-- A fresh response writer, before any handler has touched it. -/
def emptyWriter : ResponseWriter :=
  { header := [], status := none, body := "", alerts := [] }

/-- `w.WriteHeader(code)`: only the first call takes effect (Go ignores
superfluous calls). -/
def writeHeader (w : ResponseWriter) (code : Nat) : ResponseWriter :=
  match w.status with
  | some _ => w
  | none => { w with status := some code }

/-- `w.Write(s)`: implicitly sends status 200 if `WriteHeader` has not
been called yet, then appends to the body.  The model's write cannot
fail, so the `err != nil` branches guarding `alerts.Send` after writes in
the source are never taken. -/
def write (w : ResponseWriter) (s : String) : ResponseWriter :=
  let w1 :=
    match w.status with
    | none => { w with status := some 200 }
    | some _ => w
  { w1 with body := w1.body ++ s }

/-- `w.Header().Set(k, v)`: replaces any existing values for the key. -/
def setHeader (w : ResponseWriter) (k v : String) : ResponseWriter :=
  { w with header := (w.header.filter (fun p => p.1 ≠ k)) ++ [(k, v)] }

/-- `alerts.Send(msg, err)`: appends to the alert log. -/
def alertsSend (w : ResponseWriter) (msg : String) (e : Option GoError) :
    ResponseWriter :=
  { w with alerts := w.alerts ++ [(msg, e)] }

/-- `response.SendInternalServerError`: writes status 500 and the body
"Internal Server Error" (the `w.Write` error branch is unreachable in the
model). -/
def SendInternalServerError (w : ResponseWriter) : ResponseWriter :=
  write (writeHeader w 500) "Internal Server Error"

/-- The outcome of running a handler: it either returns normally with the
final writer state, or panics with a value, leaving the writes it made
before panicking in place. -/
inductive HResult where
  | ok (w : ResponseWriter)
  | panicked (v : GoValue) (w : ResponseWriter)
deriving DecidableEq, Repr

/-- An `http.Handler`, as a function of the request and the writer state. -/
def Handler : Type := Request → ResponseWriter → HResult

/-- Lines 20-25 of middlewares.go: the recovered panic value is used
as-is when it is an `error`, otherwise converted with
`fmt.Errorf("%v", err)`, whose message is the value's `%v` formatting. -/
def panicToError : GoValue → GoError
  | GoValue.ofError e => e
  | GoValue.ofOther s => GoError.mk s

/-- `middlewares.RecoveryMiddleware`: runs `next`; on a panic it recovers,
converts the panic value to an error, logs it (the `log.Printf` call has
no observable effect in the model), sends the "Panic recovery" alert and
writes the internal-server-error response. -/
def RecoveryMiddleware (next : Handler) : Handler :=
  fun r w =>
    match next r w with
    | HResult.ok w1 => HResult.ok w1
    | HResult.panicked v w1 =>
      HResult.ok
        (SendInternalServerError
          (alertsSend w1 "Panic recovery" (some (panicToError v))))

/-- `middlewares.AuthMiddleware`: compares the "auth-token" header with
the `AUTH_TOKEN` environment variable (`env` models `os.Getenv`, which
returns the empty string for an unset variable); on mismatch it sends an
alert and the internal-server-error response without calling `next`. -/
def AuthMiddleware (env : String → String) (next : Handler) : Handler :=
  fun r w =>
    let token := headerGet r "auth-token"
    if token ≠ env "AUTH_TOKEN" then
      HResult.ok
        (SendInternalServerError
          (alertsSend w
            "Unauthorized request. Invalid auth token or token is nil" none))
    else
      next r w

/-- `middlewares.GenerateCacheKey`: "cache:" + RemoteAddr + ":" +
URL.Path. -/
def GenerateCacheKey (req : Request) : String :=
  "cache:" ++ req.remoteAddr ++ ":" ++ req.urlPath

/-- `middlewares.CacheMiddleware`.  `getCache` models `cache.GetCache`
(an external Redis lookup): it returns an error or, on success, the
payload pointer, `none` standing for a nil payload.  `encode` models
`json.NewEncoder(w).Encode`: the encoded text, or an encoding error, in
which case the handler returns with only the Content-Type header set.
On a hit with a non-nil payload the response is served from the cache;
otherwise `next` handles the request. -/
def CacheMiddleware (getCache : String → Except GoError (Option GoValue))
    (encode : GoValue → Except GoError String) (next : Handler) : Handler :=
  fun req w =>
    match getCache (GenerateCacheKey req) with
    | Except.ok (some payload) =>
      let w1 := setHeader w "Content-Type" "application/json"
      match encode payload with
      | Except.ok s => HResult.ok (write w1 s)
      | Except.error _ => HResult.ok w1
    | Except.ok none => next req w
    | Except.error _ => next req w

/-!
Helper lemmas about the Future trace semantics.
-/

theorem run_append {T : Type} (es es2 : List Ev) (s : Future T) :
    run s (es ++ es2) = run (run s es) es2 := by
  induction es generalizing s with
  | nil => rfl
  | cons e es ih =>
    cases e with
    | work => simpa [run] using ih (workStep s)
    | await => simpa [run] using ih s

theorem runReturns_append {T : Type} (es es2 : List Ev) (s : Future T) :
    runReturns s (es ++ es2) = runReturns s es ++ runReturns (run s es) es2 := by
  induction es generalizing s with
  | nil => rfl
  | cons e es ih =>
    cases e with
    | work => simpa [run, runReturns] using ih (workStep s)
    | await =>
      cases hA : Await s with
      | none => simpa [run, runReturns, hA] using ih s
      | some v => simpa [run, runReturns, hA] using ih s

theorem run_execCount {T : Type} (es : List Ev) (s : Future T) :
    (run s es).execCount = s.execCount + countWork es := by
  induction es generalizing s with
  | nil => simp [run, countWork]
  | cons e es ih =>
    cases e with
    | work => simp [run, countWork, ih, workStep]; omega
    | await => simp [run, countWork, ih]

theorem run_awaits_id {T : Type} (es : List Ev) (s : Future T)
    (ha : ∀ e ∈ es, e = Ev.await) : run s es = s := by
  induction es with
  | nil => rfl
  | cons e es ih =>
    cases e with
    | work => exact absurd (ha Ev.work (List.mem_cons_self _ _)) (by simp)
    | await =>
      exact ih fun e he => ha e (List.mem_cons_of_mem _ he)

theorem cellInv_workStep {T : Type} (f : Unit → T) (s : Future T)
    (h : CellInv f s) : CellInv f (workStep s) := by
  obtain ⟨hc, _⟩ := h
  exact ⟨hc, Or.inr ⟨rfl, by simp [workStep, hc]⟩⟩

theorem cellInv_run {T : Type} (f : Unit → T) (es : List Ev) (s : Future T)
    (h : CellInv f s) : CellInv f (run s es) := by
  induction es generalizing s with
  | nil => exact h
  | cons e es ih =>
    cases e with
    | work => exact ih _ (cellInv_workStep f s h)
    | await => exact ih _ h

theorem cellInv_init {T : Type} (f : Unit → T) : CellInv f (ExecAsync f) :=
  ⟨rfl, Or.inl ⟨rfl, rfl⟩⟩

theorem await_of_cellInv {T : Type} {f : Unit → T} {s : Future T}
    (h : CellInv f s) (hd : s.done = true) : Await s = some (f ()) := by
  obtain ⟨_, hcase⟩ := h
  rcases hcase with ⟨h1, _⟩ | ⟨_, h2⟩
  · rw [hd] at h1; cases h1
  · simp [Await, hd, h2]

theorem result_of_cellInv {T : Type} {f : Unit → T} {s : Future T}
    (h : CellInv f s) (hd : s.done = true) : s.result = some (f ()) := by
  obtain ⟨_, hcase⟩ := h
  rcases hcase with ⟨h1, _⟩ | ⟨_, h2⟩
  · rw [hd] at h1; cases h1
  · exact h2

theorem done_of_await_eq_some {T : Type} {s : Future T} {v : T}
    (hA : Await s = some v) : s.done = true := by
  cases hd : s.done
  · rw [Await, hd] at hA; simp at hA
  · rfl

theorem runReturns_all_eq {T : Type} (f : Unit → T) (es : List Ev)
    (s : Future T) (h : CellInv f s) :
    ∀ v ∈ runReturns s es, v = f () := by
  induction es generalizing s with
  | nil => intro v hv; simp [runReturns] at hv
  | cons e es ih =>
    cases e with
    | work =>
      intro v hv
      rw [runReturns] at hv
      exact ih _ (cellInv_workStep f s h) v hv
    | await =>
      intro v hv
      rw [runReturns] at hv
      cases hA : Await s with
      | none =>
        rw [hA] at hv
        exact ih _ h v hv
      | some w =>
        rw [hA] at hv
        have hw : w = f () := by
          have := await_of_cellInv h (done_of_await_eq_some hA)
          rw [hA] at this
          exact (Option.some.injEq _ _).mp this
        rcases List.mem_cons.mp hv with rfl | hv2
        · exact hw
        · exact ih _ h v hv2

theorem run_done_mono {T : Type} (es : List Ev) (s : Future T)
    (hd : s.done = true) : (run s es).done = true := by
  induction es generalizing s with
  | nil => exact hd
  | cons e es ih =>
    cases e with
    | work => exact ih _ (by simp [workStep])
    | await => exact ih _ hd

theorem run_done_of_mem_work {T : Type} (es : List Ev) (s : Future T)
    (hw : Ev.work ∈ es) : (run s es).done = true := by
  induction es generalizing s with
  | nil => cases hw
  | cons e es ih =>
    cases e with
    | work => exact run_done_mono es _ (by simp [workStep])
    | await =>
      rcases List.mem_cons.mp hw with h1 | h2
      · cases h1
      · exact ih _ h2

/-!
Claim theorems for the Future (claims C1 to C7).  The `async` package
implementation is absent from the sources, so these are settled against
the spec-modelled Future above.
-/

/-- C1: for every Future created by ExecAsync from a computation `f`, in
any schedule in which the single worker has run, every Await call that
returns (however many there are) returns the computation's value, and the
computation has executed exactly once: the accessor events never add an
execution. -/
theorem await_idempotent_single_execution {T : Type} (f : Unit → T)
    (es : List Ev) (h1 : countWork es = 1) :
    (run (ExecAsync f) es).execCount = 1 ∧
    ∀ v ∈ runReturns (ExecAsync f) es, v = f () := by
  constructor
  · rw [run_execCount, h1]; rfl
  · exact runReturns_all_eq f es _ (cellInv_init f)

/-- Witness for C1: one worker run followed by three sequential Await
calls; each returns the value and the execution count stays 1. -/
theorem await_idempotent_single_execution_witness :
    (run (ExecAsync (fun _ => (7 : Nat)))
        [Ev.work, Ev.await, Ev.await, Ev.await]).execCount = 1 ∧
    ∀ v ∈ runReturns (ExecAsync (fun _ => (7 : Nat)))
        [Ev.work, Ev.await, Ev.await, Ev.await], v = 7 :=
  await_idempotent_single_execution (fun _ => (7 : Nat))
    [Ev.work, Ev.await, Ev.await, Ev.await] rfl

/-- C2: for every zero-argument computation returning a value `v` of any
type — a number, a struct-like value, an optional `none`, or an
error-shaped value alike — once the Future created from it has completed,
Await returns exactly `v`. -/
theorem await_returns_computed_value {T : Type} (v : T) (es : List Ev)
    (hd : (run (ExecAsync (fun _ => v)) es).done = true) :
    Await (run (ExecAsync (fun _ => v)) es) = some v :=
  await_of_cellInv (cellInv_run _ es _ (cellInv_init _)) hd

/-- Witness for C2, with an error-shaped value as the opaque payload. -/
theorem await_returns_computed_value_witness :
    Await (run (ExecAsync (fun _ => GoValue.ofError (GoError.mk "boom")))
        [Ev.work]) = some (GoValue.ofError (GoError.mk "boom")) :=
  await_returns_computed_value (GoValue.ofError (GoError.mk "boom"))
    [Ev.work] rfl

/-- C3: if the computation has already finished before any accessor is
invoked (the schedule so far contains the worker's run and no returned
accessor call is required), the Future is completed, the first Await call
still returns the computation's value rather than suspending, and
appending that first Await to the schedule yields exactly one more
returned value, the computation's. -/
theorem await_after_completion_no_missed_signal {T : Type} (f : Unit → T)
    (es : List Ev) (hw : Ev.work ∈ es) :
    (run (ExecAsync f) es).done = true ∧
    Await (run (ExecAsync f) es) = some (f ()) ∧
    runReturns (ExecAsync f) (es ++ [Ev.await]) =
      runReturns (ExecAsync f) es ++ [f ()] := by
  have hd : (run (ExecAsync f) es).done = true :=
    run_done_of_mem_work es _ hw
  have hA : Await (run (ExecAsync f) es) = some (f ()) :=
    await_of_cellInv (cellInv_run f es _ (cellInv_init f)) hd
  refine ⟨hd, hA, ?_⟩
  rw [runReturns_append]
  simp [runReturns, hA]

/-- Witness for C3: the worker completes before any accessor exists; the
first Await afterwards returns the value. -/
theorem await_after_completion_no_missed_signal_witness :
    (run (ExecAsync (fun _ => "immediate")) [Ev.work]).done = true ∧
    Await (run (ExecAsync (fun _ => "immediate")) [Ev.work]) =
      some "immediate" ∧
    runReturns (ExecAsync (fun _ => "immediate")) ([Ev.work] ++ [Ev.await]) =
      runReturns (ExecAsync (fun _ => "immediate")) [Ev.work] ++
        ["immediate"] :=
  await_after_completion_no_missed_signal (fun _ => "immediate") [Ev.work]
    (List.mem_cons_self _ _)

/-- C4: the worker's run is enabled from creation and runs the captured
computation to completion with no accessor call in the schedule at all;
conversely a schedule consisting only of Await events never executes the
computation and never completes the Future — execution is initiated by
the worker, never by an Await. -/
theorem execAsync_eager_start {T : Type} (f : Unit → T) (es : List Ev)
    (ha : ∀ e ∈ es, e = Ev.await) :
    (run (ExecAsync f) [Ev.work]).done = true ∧
    (run (ExecAsync f) [Ev.work]).execCount = 1 ∧
    (run (ExecAsync f) [Ev.work]).result = some (f ()) ∧
    (run (ExecAsync f) es).execCount = 0 ∧
    (run (ExecAsync f) es).done = false := by
  have hid : run (ExecAsync f) es = ExecAsync f := run_awaits_id es _ ha
  exact ⟨rfl, rfl, rfl, by rw [hid]; rfl, by rw [hid]; rfl⟩

/-- Witness for C4: two Await events alone never run the computation. -/
theorem execAsync_eager_start_witness :
    (run (ExecAsync (fun _ => (1 : Nat))) [Ev.work]).done = true ∧
    (run (ExecAsync (fun _ => (1 : Nat))) [Ev.work]).execCount = 1 ∧
    (run (ExecAsync (fun _ => (1 : Nat))) [Ev.work]).result = some 1 ∧
    (run (ExecAsync (fun _ => (1 : Nat))) [Ev.await, Ev.await]).execCount
      = 0 ∧
    (run (ExecAsync (fun _ => (1 : Nat))) [Ev.await, Ev.await]).done
      = false :=
  execAsync_eager_start (fun _ => (1 : Nat)) [Ev.await, Ev.await]
    (by decide)

/-- C5: creation is a total function that returns the handle
synchronously: launching never fails (there is no error outcome in its
type), the handle is returned with the computation captured but not yet
counted as executed and the cell not yet signaled (the worker runs
concurrently, not inside the call), and a failure inside the computation
is observable only as the value the computation returns, delivered
unchanged through Await. -/
theorem execAsync_never_fails {T : Type} (f : Unit → T) :
    (ExecAsync f).computation = f ∧
    (ExecAsync f).execCount = 0 ∧
    (ExecAsync f).done = false ∧
    (ExecAsync f).result = none ∧
    ∀ (E : Type) (e : E),
      runReturns (ExecAsync (fun _ => e)) [Ev.work, Ev.await] = [e] :=
  ⟨rfl, rfl, rfl, rfl, fun _ _ => rfl⟩

/-- C6: Await has no timeout or cancellation path: in a state where the
worker has not finished, an Await call has returned nothing (it is still
blocked, with no substitute value), and once the worker has finished no
later event can stop or undo it — every extension of the schedule keeps
the Future completed and Await keeps returning the computation's value. -/
theorem await_no_cancellation {T : Type} (f : Unit → T)
    (es es2 : List Ev) :
    ((run (ExecAsync f) es).done = false →
      Await (run (ExecAsync f) es) = none ∧
      (run (ExecAsync f) es).result = none) ∧
    ((run (ExecAsync f) es).done = true →
      (run (ExecAsync f) (es ++ es2)).done = true ∧
      Await (run (ExecAsync f) (es ++ es2)) = some (f ())) := by
  constructor
  · intro hd
    refine ⟨by simp [Await, hd], ?_⟩
    have h := cellInv_run f es _ (cellInv_init f)
    obtain ⟨_, hcase⟩ := h
    rcases hcase with ⟨_, h2⟩ | ⟨h1, _⟩
    · exact h2
    · rw [hd] at h1; cases h1
  · intro hd
    have hdone : (run (ExecAsync f) (es ++ es2)).done = true := by
      rw [run_append]; exact run_done_mono es2 _ hd
    exact ⟨hdone,
      await_of_cellInv (cellInv_run f (es ++ es2) _ (cellInv_init f)) hdone⟩

/-- Witness for C6: before the worker runs, Await has returned nothing;
after it has run, appending further events leaves the completed result in
place. -/
theorem await_no_cancellation_witness :
    (Await (run (ExecAsync (fun _ => (3 : Nat))) []) = none ∧
      (run (ExecAsync (fun _ => (3 : Nat))) []).result = none) ∧
    ((run (ExecAsync (fun _ => (3 : Nat))) ([Ev.work] ++ [Ev.await])).done
        = true ∧
      Await (run (ExecAsync (fun _ => (3 : Nat))) ([Ev.work] ++ [Ev.await]))
        = some 3) :=
  ⟨(await_no_cancellation (fun _ => (3 : Nat)) [] []).1 rfl,
    (await_no_cancellation (fun _ => (3 : Nat)) [Ev.work] [Ev.await]).2 rfl⟩

/-- C7: in any schedule of the single worker's run interleaved with
arbitrarily many concurrent Await calls, every Await call that returns
returns the identical value (the computation's), the computation's side
effect has occurred exactly once, and no observer can see the done signal
with the result still unset: whenever done is observed as signaled, the
result already holds the computation's value. -/
theorem concurrent_awaits_consistent {T : Type} (f : Unit → T)
    (es : List Ev) (h1 : countWork es = 1) :
    (run (ExecAsync f) es).execCount = 1 ∧
    (∀ v ∈ runReturns (ExecAsync f) es, v = f ()) ∧
    ((run (ExecAsync f) es).done = true →
      (run (ExecAsync f) es).result = some (f ())) := by
  refine ⟨by rw [run_execCount, h1]; rfl,
    runReturns_all_eq f es _ (cellInv_init f), fun hd => ?_⟩
  exact result_of_cellInv (cellInv_run f es _ (cellInv_init f)) hd

/-- Witness for C7: an Await issued before completion interleaved with
the worker's run and two Await calls after it; the returned values are
all the computation's value and the execution count is 1. -/
theorem concurrent_awaits_consistent_witness :
    (run (ExecAsync (fun _ => "same"))
        [Ev.await, Ev.work, Ev.await, Ev.await]).execCount = 1 ∧
    (∀ v ∈ runReturns (ExecAsync (fun _ => "same"))
        [Ev.await, Ev.work, Ev.await, Ev.await], v = "same") ∧
    ((run (ExecAsync (fun _ => "same"))
        [Ev.await, Ev.work, Ev.await, Ev.await]).done = true →
      (run (ExecAsync (fun _ => "same"))
          [Ev.await, Ev.work, Ev.await, Ev.await]).result = some "same") :=
  concurrent_awaits_consistent (fun _ => "same")
    [Ev.await, Ev.work, Ev.await, Ev.await] rfl

/-!
Claim theorems for the middlewares (claims C8 to C10), settled against
src/middlewares/middlewares.go and the `response` package source.
-/

/-- C8: the handler returned by AuthMiddleware invokes `next` exactly
when the request's "auth-token" header equals the AUTH_TOKEN environment
variable; when they differ (the absent header reading as the empty
string), the outcome is independent of `next` — `next` is never invoked —
and on a fresh writer the response is status 500 (not 401) with body
"Internal Server Error". -/
theorem authMiddleware_token_gate (env : String → String) (next : Handler)
    (r : Request) (w : ResponseWriter) :
    (headerGet r "auth-token" = env "AUTH_TOKEN" →
      AuthMiddleware env next r w = next r w) ∧
    (headerGet r "auth-token" ≠ env "AUTH_TOKEN" →
      (∀ next2 : Handler,
        AuthMiddleware env next2 r w = AuthMiddleware env next r w) ∧
      AuthMiddleware env next r emptyWriter =
        HResult.ok
          { header := [], status := some 500, body := "Internal Server Error",
            alerts :=
              [("Unauthorized request. Invalid auth token or token is nil",
                none)] }) := by
  constructor
  · intro h
    simp [AuthMiddleware, h]
  · intro h
    constructor
    · intro next2
      simp [AuthMiddleware, h]
    · simp [AuthMiddleware, h]
      rfl

/-- Witness for C8: the header is absent and AUTH_TOKEN is set, so they
differ; the response is a 500 with body "Internal Server Error" and the
next handler (which would have written status 200) is never invoked. -/
theorem authMiddleware_token_gate_witness :
    AuthMiddleware (fun _ => "secret") (fun _ w => HResult.ok (write w "ok"))
        { headers := [], remoteAddr := "1.2.3.4", urlPath := "/x" }
        emptyWriter =
      HResult.ok
        { header := [], status := some 500, body := "Internal Server Error",
          alerts :=
            [("Unauthorized request. Invalid auth token or token is nil",
              none)] } :=
  ((authMiddleware_token_gate (fun _ => "secret")
      (fun _ w => HResult.ok (write w "ok"))
      { headers := [], remoteAddr := "1.2.3.4", urlPath := "/x" }
      emptyWriter).2 (by decide)).2

/-- C9: RecoveryMiddleware never lets a panic escape: when the wrapped
handler panics with any value, the result is a normal return whose writer
carries the internal-server-error write after the "Panic recovery" alert
holding the panic value converted to an error — the value itself when it
is an error, its formatting otherwise; with no prior status the response
status is 500 with "Internal Server Error" appended to the body.  When
the wrapped handler does not panic, the response is exactly the wrapped
handler's. -/
theorem recoveryMiddleware_recovers (next : Handler) (r : Request)
    (w : ResponseWriter) :
    (∀ w1, next r w = HResult.ok w1 →
      RecoveryMiddleware next r w = HResult.ok w1) ∧
    (∀ v w1, next r w = HResult.panicked v w1 →
      RecoveryMiddleware next r w =
        HResult.ok
          (SendInternalServerError
            (alertsSend w1 "Panic recovery" (some (panicToError v))))) ∧
    (∀ v w1, next r w = HResult.panicked v w1 → w1.status = none →
      RecoveryMiddleware next r w =
        HResult.ok
          { header := w1.header, status := some 500,
            body := w1.body ++ "Internal Server Error",
            alerts := w1.alerts ++ [("Panic recovery",
              some (panicToError v))] }) ∧
    (∀ e, panicToError (GoValue.ofError e) = e) ∧
    (∀ s, panicToError (GoValue.ofOther s) = GoError.mk s) := by
  refine ⟨?_, ?_, ?_, fun _ => rfl, fun _ => rfl⟩
  · intro w1 h
    simp [RecoveryMiddleware, h]
  · intro v w1 h
    simp [RecoveryMiddleware, h]
  · intro v w1 h hs
    simp [RecoveryMiddleware, h, SendInternalServerError, alertsSend,
      writeHeader, write, hs]

/-- Witness for C9: a handler that panics with a non-error value after
having written nothing; the middleware returns normally with a 500
response and the alert carries the formatted error. -/
theorem recoveryMiddleware_recovers_witness :
    RecoveryMiddleware
        (fun _ w => HResult.panicked (GoValue.ofOther "boom") w)
        { headers := [], remoteAddr := "1.2.3.4", urlPath := "/x" }
        emptyWriter =
      HResult.ok
        { header := [], status := some 500, body := "Internal Server Error",
          alerts := [("Panic recovery", some (GoError.mk "boom"))] } := by
  have h :=
    ((recoveryMiddleware_recovers
        (fun _ w => HResult.panicked (GoValue.ofOther "boom") w)
        { headers := [], remoteAddr := "1.2.3.4", urlPath := "/x" }
        emptyWriter).2.2.1 (GoValue.ofOther "boom") emptyWriter rfl rfl)
  simpa using h

/-- C10: the handler returned by CacheMiddleware delegates to `next`
exactly when the lookup under the key "cache:" + RemoteAddr + ":" +
URL.Path returns an error or a nil payload; on a hit with a non-nil
payload it sets Content-Type to "application/json", writes the encoded
payload, and the outcome is independent of `next` — `next` is never
invoked. -/
theorem cacheMiddleware_hit_miss
    (getCache : String → Except GoError (Option GoValue))
    (encode : GoValue → Except GoError String) (next : Handler)
    (req : Request) (w : ResponseWriter) :
    GenerateCacheKey req = "cache:" ++ req.remoteAddr ++ ":" ++ req.urlPath ∧
    (∀ e, getCache (GenerateCacheKey req) = Except.error e →
      CacheMiddleware getCache encode next req w = next req w) ∧
    (getCache (GenerateCacheKey req) = Except.ok none →
      CacheMiddleware getCache encode next req w = next req w) ∧
    (∀ p, getCache (GenerateCacheKey req) = Except.ok (some p) →
      (∀ next2 : Handler,
        CacheMiddleware getCache encode next2 req w =
          CacheMiddleware getCache encode next req w) ∧
      (∀ s, encode p = Except.ok s →
        CacheMiddleware getCache encode next req w =
          HResult.ok
            (write (setHeader w "Content-Type" "application/json") s))) := by
  refine ⟨rfl, ?_, ?_, ?_⟩
  · intro e h
    simp [CacheMiddleware, h]
  · intro h
    simp [CacheMiddleware, h]
  · intro p h
    constructor
    · intro next2
      simp [CacheMiddleware, h]
    · intro s hs
      simp [CacheMiddleware, h, hs]

/-- Witness for C10: a lookup that hits with a non-nil payload; the
response is served from the cache with the JSON Content-Type and the
next handler (which would have written "from next") is never invoked. -/
theorem cacheMiddleware_hit_miss_witness :
    CacheMiddleware (fun _ => Except.ok (some (GoValue.ofOther "cached")))
        (fun _ => Except.ok "\x7b\x7d") (fun _ w => HResult.ok (write w "from next"))
        { headers := [], remoteAddr := "9.9.9.9", urlPath := "/items" }
        emptyWriter =
      HResult.ok
        (write
          (setHeader emptyWriter "Content-Type" "application/json")
          "\x7b\x7d") :=
  (((cacheMiddleware_hit_miss
      (fun _ => Except.ok (some (GoValue.ofOther "cached")))
      (fun _ => Except.ok "\x7b\x7d") (fun _ w => HResult.ok (write w "from next"))
      { headers := [], remoteAddr := "9.9.9.9", urlPath := "/items" }
      emptyWriter).2.2.2 (GoValue.ofOther "cached") rfl).2 "\x7b\x7d" rfl)
